import Mathlib

set_option maxRecDepth 10000

/-!
Verification of the vllm-eval code-verification engine and dataset
deduplicator against their natural-language specification.

The Python sources embedded here:
  * eval/nvidia_eval/tools/code_verifier.py  (grading engine)
  * eval/nvidia_eval/evaluate_livecodebench.py  (benchmark aggregation)
  * scripts/dedup_datasets.py  (two-stage dataset deduplication)

Pure functions are translated directly; the execution of model-generated
Python text (exec, regex extraction, signal alarms) cannot be embedded, so
the behaviour of the compiled solution is a parameter (an oracle giving
the outcome of each host-level call), while all control flow, comparison
logic and result/metadata construction around it is translated from the
source.
-/

namespace VllmEval

/-! ## Rational model of Python floats

Python floats are modelled as exact fractions with explicit numerator and
denominator; every construction in this file produces a positive
denominator.  Comparisons are integer cross-multiplications, so they
evaluate inside the kernel.
-/

/-- An exact fraction modelling a Python float value. -/
structure PyQ : Type where
  num : Int
  den : Int
deriving Repr, DecidableEq

/-- Embed an integer. -/
def intQ (n : Int) : PyQ := ⟨n, 1⟩

/-- Numeric equality of fractions (cross multiplication). -/
def qEq (a b : PyQ) : Bool := a.num * b.den == b.num * a.den

/-- Numeric order on fractions with positive denominators. -/
def qLe (a b : PyQ) : Bool := a.num * b.den ≤ b.num * a.den

/-- Strict numeric order on fractions with positive denominators. -/
def qLt (a b : PyQ) : Bool := a.num * b.den < b.num * a.den

/-- Fraction addition. -/
def qAdd (a b : PyQ) : PyQ := ⟨a.num * b.den + b.num * a.den, a.den * b.den⟩

/-- Fraction subtraction. -/
def qSub (a b : PyQ) : PyQ := ⟨a.num * b.den - b.num * a.den, a.den * b.den⟩

/-- Fraction multiplication. -/
def qMul (a b : PyQ) : PyQ := ⟨a.num * b.num, a.den * b.den⟩

/-- Absolute value of a fraction with positive denominator. -/
def qAbs (a : PyQ) : PyQ := ⟨if a.num < 0 then -a.num else a.num, a.den⟩

/-! ## Python value model

Model of the Python values that flow through the grader: ints, floats,
strings, lists and tuples.
-/

inductive PyVal : Type where
  | int (n : Int)
  | float (q : PyQ)
  | str (s : String)
  | list (xs : List PyVal)
  | tuple (xs : List PyVal)
deriving Repr

mutual

/-- Equality of the `json.dumps` renderings of two values: ints and
floats keep distinct renderings (`3` vs `3.0`), floats of equal numeric
value render identically, and containers compare pointwise. -/
def pyValBeq : PyVal → PyVal → Bool
  | .int a, .int b => a == b
  | .float a, .float b => qEq a b
  | .str a, .str b => a == b
  | .list xs, .list ys => pyValBeqList xs ys
  | .tuple xs, .tuple ys => pyValBeqList xs ys
  | _, _ => false

/-- Pointwise `pyValBeq` on value lists. -/
def pyValBeqList : List PyVal → List PyVal → Bool
  | [], [] => true
  | x :: xs, y :: ys => pyValBeq x y && pyValBeqList xs ys
  | _, _ => false

end

mutual

/-- Python `==` on the modelled values: numbers compare by numeric value
across int/float, lists and tuples compare pointwise, a tuple is never
`==` a list, and values of unrelated kinds are unequal. -/
def pyEq : PyVal → PyVal → Bool
  | .int a, .int b => a == b
  | .int a, .float q => qEq (intQ a) q
  | .float q, .int a => qEq q (intQ a)
  | .float a, .float b => qEq a b
  | .str a, .str b => a == b
  | .list xs, .list ys => pyEqList xs ys
  | .tuple xs, .tuple ys => pyEqList xs ys
  | _, _ => false

/-- Pointwise Python `==` on lists of values. -/
def pyEqList : List PyVal → List PyVal → Bool
  | [], [] => true
  | x :: xs, y :: ys => pyEq x y && pyEqList xs ys
  | _, _ => false

end

/-! ## String helpers

Python string primitives used by the grader, modelled over `List Char`.
`Char.isWhitespace` covers space, tab, CR and LF; Python `str.strip` also
strips `\x0b`/`\x0c`, which never occur in the inputs treated here.
-/

/-- Python `str.strip()`: drop whitespace from both ends. -/
def trimChars (l : List Char) : List Char :=
  ((l.dropWhile Char.isWhitespace).reverse.dropWhile Char.isWhitespace).reverse

/-- Python `str.strip()` on a `String`. -/
def pyStrip (s : String) : String :=
  String.mk (trimChars s.data)

/-- Python `str.lower()` (simple per-character lowering). -/
def pyLower (s : String) : String :=
  String.mk (s.data.map Char.toLower)

/-- Python `str.split("\n")`: split at every newline, keeping empty
pieces, with `[""]` for the empty string. -/
def splitOnNl : List Char → List (List Char)
  | [] => [[]]
  | c :: cs =>
    if c = '\n' then [] :: splitOnNl cs
    else
      match splitOnNl cs with
      | h :: t => (c :: h) :: t
      | [] => [[c]]

/-- Python `str.split()` with no argument: split on whitespace runs,
discarding empty pieces (auxiliary accumulator form). -/
def splitWSGo : List Char → List Char → List (List Char)
  | [], acc => if acc.isEmpty then [] else [acc.reverse]
  | c :: cs, acc =>
    if c.isWhitespace then
      if acc.isEmpty then splitWSGo cs [] else acc.reverse :: splitWSGo cs []
    else splitWSGo cs (c :: acc)

/-- Python `str.split()` with no argument. -/
def splitWS (l : List Char) : List (List Char) :=
  splitWSGo l []

/-- `truncatefn` (code_verifier.py): strings of at most 300 characters are
returned unchanged, longer ones keep the first and last 150 characters
around a truncation marker. -/
def truncatefn (s : String) : String :=
  if s.data.length ≤ 300 then s
  else
    String.mk (s.data.take 150) ++ "...(truncated) ..." ++
      String.mk (s.data.drop (s.data.length - 150))

/-- `get_stripped_lines` (code_verifier.py): strip the whole value, split
on newlines, and strip each resulting line. -/
def get_stripped_lines (val : String) : List String :=
  (splitOnNl (trimChars val.data)).map (fun l => String.mk (trimChars l))

/-! ## Numeric parsing and tolerance -/

/-- Consume a run of decimal digits; returns the accumulated value, the
number of digits read, and the remaining characters. -/
def takeDigitsGo : List Char → Nat → Nat → Nat × Nat × List Char
  | [], v, n => (v, n, [])
  | c :: cs, v, n =>
    if c.isDigit then takeDigitsGo cs (10 * v + (c.toNat - 48)) (n + 1)
    else (v, n, c :: cs)

/-- Exponent suffix of a float literal: empty, or `e`/`E` with an optional
sign and a nonempty digit run ending the token. -/
def parseExpPart (mant : PyQ) : List Char → Option PyQ
  | [] => some mant
  | e :: r =>
    if e = 'e' || e = 'E' then
      let signed : Bool × List Char :=
        match r with
        | '+' :: r2 => (false, r2)
        | '-' :: r2 => (true, r2)
        | _ => (false, r)
      let (ev, ec, r2) := takeDigitsGo signed.2 0 0
      if ec = 0 || !r2.isEmpty then none
      else if signed.1 then some ⟨mant.num, mant.den * ((10 : Int) ^ ev)⟩
      else some ⟨mant.num * ((10 : Int) ^ ev), mant.den⟩
    else none

/-- Model of Python `float()` on a finite decimal numeral token: optional
sign, digits with an optional fractional part, optional exponent.  The
special forms (`inf`, `nan`, underscores, hex) are not modelled; no claim
depends on them. -/
def parseFloat? (l : List Char) : Option PyQ :=
  let signed : Bool × List Char :=
    match l with
    | '+' :: r => (false, r)
    | '-' :: r => (true, r)
    | _ => (false, l)
  let (ip, ic, l2) := takeDigitsGo signed.2 0 0
  let finish : PyQ → Option PyQ := fun m =>
    parseExpPart (if signed.1 then ⟨-m.num, m.den⟩ else m)
      (match l2 with
       | '.' :: r => (takeDigitsGo r 0 0).2.2
       | _ => l2)
  match l2 with
  | '.' :: r =>
    let (fp, fc, _) := takeDigitsGo r 0 0
    if ic + fc = 0 then none
    else finish ⟨(ip : Int) * ((10 : Int) ^ fc) + (fp : Int), (10 : Int) ^ fc⟩
  | _ =>
    if ic = 0 then none else finish ⟨(ip : Int), 1⟩

/-- `np.isclose` default relative tolerance (`rtol = 1e-5`). -/
def np_rtol : PyQ := ⟨1, 100000⟩

/-- `np.isclose` default absolute tolerance (`atol = 1e-8`). -/
def np_atol : PyQ := ⟨1, 100000000⟩

/-- Scalar `np.allclose` with the default tolerances:
`|a - b| <= atol + rtol * |b|`. -/
def npIsClose (a b : PyQ) : Bool :=
  qLe (qAbs (qSub a b)) (qAdd np_atol (qMul np_rtol (qAbs b)))

/-- `convert_line_to_decimals` (code_verifier.py): split the line on
whitespace and convert every token with `float()`; `none` models the
caught conversion failure (the function returning `False, []`). -/
def convert_line_to_decimals (line : String) : Option (List PyQ) :=
  (splitWS line.data).mapM parseFloat?

/-- `np.allclose` on two numeric lists (elementwise, default tolerances).
The caller checks equal lengths first, as the source does. -/
def npAllCloseList : List PyQ → List PyQ → Bool
  | [], [] => true
  | a :: as_, b :: bs => npIsClose a b && npAllCloseList as_ bs
  | _, _ => false

/-! ## Call-based comparison cascade -/

mutual

/-- Canonical form taken by `json.dumps`: tuples are serialised exactly
like lists at every depth, so dumps-string equality is `pyValBeq` of this
canonical form. -/
def jsonCanon : PyVal → PyVal
  | .int n => .int n
  | .float q => .float q
  | .str s => .str s
  | .list xs => .list (jsonCanonList xs)
  | .tuple xs => .list (jsonCanonList xs)

/-- `jsonCanon` mapped over a value list. -/
def jsonCanonList : List PyVal → List PyVal
  | [] => []
  | x :: xs => jsonCanon x :: jsonCanonList xs

end

/-- `json.dumps(prediction) == json.dumps(gt_out)` on the modelled values
(all modelled values are JSON-serialisable). -/
def jsonDumpsEq (a b : PyVal) : Bool :=
  pyValBeq (jsonCanon a) (jsonCanon b)

/-- Python `float(v)`: defined for ints, floats and numeric strings
(stripped), a `TypeError`/`ValueError` (modelled as `none`) otherwise. -/
def pyFloat? : PyVal → Option PyQ
  | .int n => some (intQ n)
  | .float q => some q
  | .str s => parseFloat? (trimChars s.data)
  | .list _ => none
  | .tuple _ => none

/-- Python `len(v)` for sequences, `none` (a `TypeError`) otherwise. -/
def pyLen? : PyVal → Option Nat
  | .list xs => some xs.length
  | .tuple xs => some xs.length
  | .str s => some s.data.length
  | _ => none

/-- Python `v[i]` for sequences (a one-character string for strings),
`none` where indexing raises. -/
def pyIndex? : PyVal → Nat → Option PyVal
  | .list xs, i => xs.get? i
  | .tuple xs, i => xs.get? i
  | .str s, i => (s.data.get? i).map (fun c => .str (String.mk [c]))
  | _, _ => none

/-- Elementwise float-tolerant comparison of `grade_call_based` (its inner
`for i in range(len(prediction))` loop): every element of the prediction
and the corresponding element of the expected value must both convert
with `float()` and be `np.allclose`; any conversion failure is the caught
exception, which leaves the branch without a match. -/
def elementwiseAllClose : List PyVal → PyVal → Nat → Bool
  | [], _, _ => true
  | x :: rest, g, i =>
    match pyFloat? x, (pyIndex? g i).bind pyFloat? with
    | some a, some b => npIsClose a b && elementwiseAllClose rest g (i + 1)
    | _, _ => false

/-- The equivalence cascade of `grade_call_based` (code_verifier.py lines
353-385): convert a top-level tuple prediction to a list, then accept if
any of (a) Python `==`, (b) `json.dumps` equality, (c) scalar
`np.allclose` after `float()` conversion, (d) elementwise `np.allclose`
for list predictions of matching length, succeeds. -/
def cascadeResult (pred0 gtOut : PyVal) : Bool :=
  let prediction : PyVal :=
    match pred0 with
    | .tuple xs => .list xs
    | v => v
  let r1 := pyEq prediction gtOut
  let r2 := jsonDumpsEq prediction gtOut
  let r3 :=
    match pyFloat? prediction, pyFloat? gtOut with
    | some a, some b => npIsClose a b
    | _, _ => false
  let r4 :=
    match prediction with
    | .list xs =>
      match pyLen? gtOut with
      | some m => decide (xs.length = m) && elementwiseAllClose xs gtOut 0
      | none => false
    | _ => false
  r1 || r2 || r3 || r4

/-! ## Exceptions, results and metadata

`PyExc` models a raised host exception by the observations the grader
makes of it: `reprStr`/`strStr` model `repr(e)`/`str(e)`, `isTimeout`
models `"timeoutexception" in repr(e).lower()`, `isNameError` models
`"NameError" in repr(e)`, and `isException` models
`isinstance(e, Exception)` — false for `BaseException`s such as
`SystemExit` and `KeyboardInterrupt`, which `except Exception` does not
catch. -/
structure PyExc : Type where
  reprStr : String
  strStr : String
  isTimeout : Bool
  isNameError : Bool
  isException : Bool
deriving Repr, DecidableEq

/-- One entry of the per-problem result list: Python booleans for
pass/wrong-answer in the call-based grader, or a negative integer
sentinel. -/
inductive TestResult : Type where
  | boolean (b : Bool)
  | sentinel (n : Int)
deriving Repr, DecidableEq

/-- The fatal sentinel codes named by the specification
(`-2`/`-3`/`-4`/`-200`/`-300`). -/
def isFatalCode (r : TestResult) : Bool :=
  r == .sentinel (-2) || r == .sentinel (-3) || r == .sentinel (-4) ||
    r == .sentinel (-200) || r == .sentinel (-300)

/-- The diagnostic dictionary built at a failing test case: optional
`"error"` (`repr(e)`), `"error_code"`, `"error_message"`, and the
truncated `"inputs"`/`"output"`/`"expected"` fields. -/
structure ErrInfo : Type where
  error : Option String
  error_code : Int
  error_message : String
  inputs : Option String
  output : Option String
  expected : Option String
deriving Repr, DecidableEq

/-- Metadata returned alongside a result list: a failure dictionary, the
success dictionary `{"execution time": t}` (wall-clock value not
modelled), a plain string (run_test), or the set literal
`{"Compile Error while running the testcases."}`. -/
inductive RunMeta : Type where
  | info (e : ErrInfo)
  | time
  | msg (s : String)
  | msgSet (s : String)
deriving Repr, DecidableEq

/-- `isSuccessMeta m` holds only for the success metadata of a fully
graded problem. -/
def isSuccessMeta : RunMeta → Bool
  | .time => true
  | _ => false

mutual

/-- Python `str()` of a value as used by `truncatefn` on non-strings: a
string is returned as itself, containers render their elements.  Float
rendering differs from CPython (exact fraction instead of decimal); no
claim inspects a rendered float. -/
def pyStr : PyVal → String
  | .str s => s
  | v => pyReprE v

/-- Python `repr()` of a value (used for elements inside containers). -/
def pyReprE : PyVal → String
  | .int n => toString n
  | .float q => toString q.num ++ "/" ++ toString q.den
  | .str s => "\x27" ++ s ++ "\x27"
  | .list xs => "[" ++ pyReprList xs ++ "]"
  | .tuple xs => "(" ++ pyReprList xs ++ ")"

/-- Comma-joined `repr()`s of the elements of a container. -/
def pyReprList : List PyVal → String
  | [] => ""
  | [x] => pyReprE x
  | x :: xs => pyReprE x ++ ", " ++ pyReprList xs

end

/-! ## replace_newlines and the stdio per-test comparison -/

/-- Auxiliary recursion for `replace_newlines`, carrying the bracket
nesting depth. -/
def replace_newlinesGo : List Char → Int → List Char
  | [], _ => []
  | c :: cs, depth0 =>
    let depth : Int :=
      if c = '[' || c = '{' then depth0 + 1
      else if c = ']' || c = '}' then depth0 - 1
      else depth0
    (if c = '\n' && depth = 0 then ',' else c) :: replace_newlinesGo cs depth

/-- `replace_newlines` (code_verifier.py): replace newlines by commas
outside any `[]`/`{}` nesting. -/
def replace_newlines (text : String) : String :=
  String.mk (replace_newlinesGo text.data 0)

/-- Numeric equality of two decimal lines (Python `==` on float lists). -/
def qListEq : List PyQ → List PyQ → Bool
  | [], [] => true
  | a :: as_, b :: bs => qEq a b && qListEq as_ bs
  | _, _ => false

/-- The per-line comparison loop of `grade_stdio` (code_verifier.py lines
506-550), after the line-count check: exact string match, else numeric
equality of the `float()`-converted lines, else elementwise `np.allclose`;
returns the `error_message` of the first failing line, or `none` when
every line is accepted. -/
def checkLinesGo : Nat → List (String × String) → Option String
  | _, [] => none
  | idx, (pl, gl) :: rest =>
    let m := "Wrong answer at output_line_idx=" ++ toString idx ++ ": " ++
      truncatefn pl ++ " != " ++ truncatefn gl
    if pl = gl then checkLinesGo (idx + 1) rest
    else
      match convert_line_to_decimals pl, convert_line_to_decimals gl with
      | some dp, some dg =>
        if qListEq dp dg then checkLinesGo (idx + 1) rest
        else if decide (dp.length = dg.length) && npAllCloseList dp dg then
          checkLinesGo (idx + 1) rest
        else some m
      | _, _ => some m

/-! ## The graders

`compile_code` executes the prepared source under `exec`; it either raises
(nothing in it catches) or returns a non-`None` namespace, so the
`compiled_sol is None` branches of the graders are unreachable and the
compile outcome is modelled as `Except PyExc Unit`.  `get_function`
returns `None` exactly when the expected entry function is absent, which
the Boolean oracle fields model.  Wall-clock alarms are real time and are
not modelled; a fired alarm surfaces as an oracle outcome whose
`isTimeout` is set.
-/

/-- Oracle for the behaviour of a stdin/stdout submission after
`clean_if_name`/`make_function` wrapping: the outcome of `compile_code`,
whether the namespace has `wrapped_function`, and for each test input the
outcome of `call_method` (captured stdout on success). -/
structure StdioCode : Type where
  compileResult : Except PyExc Unit
  hasWrappedFunction : Bool
  run : String → Except PyExc String

/-- Oracle for the behaviour of a call-based submission: the outcome of
converting the expected-output strings (json / literal parsing, lines
306-324), and per spliced test input the outcome of `compile_code`,
whether `run_main_code` is present, and the call result. -/
structure CallCode : Type where
  convertOutputs : Except PyExc (List PyVal)
  compile : String → Except PyExc Unit
  hasRunMain : String → Bool
  run : String → Except PyExc PyVal

/-- The test-case loop of `grade_call_based` (code_verifier.py lines
328-423).  `acc` is the `all_results` list built so far.  A missing
`run_main_code` returns a fresh `[-200]`, discarding `acc`, exactly as the
source returns a fresh list there.  Exceptions that are not `Exception`
subclasses propagate. -/
def gradeCallLoop (c : CallCode) (acc : List TestResult) :
    List (String × PyVal) → Except PyExc (List TestResult × RunMeta)
  | [] => .ok (acc, .time)
  | (gt_inp, gt_out) :: rest =>
    match c.compile gt_inp with
    | .error e => .error e
    | .ok _ =>
      if !c.hasRunMain gt_inp then
        .ok ([.sentinel (-200)], .msgSet "Compile Error while running the testcases.")
      else
        match c.run gt_inp with
        | .error e =>
          if e.isException then
            if e.isTimeout then
              .ok (acc ++ [.sentinel (-3)],
                .info ⟨some e.reprStr, -3, "Time Limit Exceeded",
                  some (truncatefn gt_inp), none, some (truncatefn (pyStr gt_out))⟩)
            else if e.isNameError then
              .ok (acc ++ [.sentinel (-200)],
                .info ⟨some e.reprStr, -4, "Runtime Error",
                  some (truncatefn gt_inp), none, some (truncatefn (pyStr gt_out))⟩)
            else
              .ok (acc ++ [.sentinel (-300)],
                .info ⟨some e.reprStr, -4, "Runtime Error",
                  some (truncatefn gt_inp), none, some (truncatefn (pyStr gt_out))⟩)
          else .error e
        | .ok pred0 =>
          let prediction : PyVal :=
            match pred0 with
            | .tuple xs => .list xs
            | v => v
          if cascadeResult pred0 gt_out then
            gradeCallLoop c (acc ++ [.boolean true]) rest
          else
            .ok (acc ++ [.boolean false],
              .info ⟨none, -2, "Wrong Answer",
                some (truncatefn gt_inp), some (truncatefn (pyStr prediction)),
                some (truncatefn (pyStr gt_out))⟩)

/-- `grade_call_based` (code_verifier.py): apply `replace_newlines` to
every input, convert the expected outputs, and run the test-case loop on
the zipped pairs. -/
def grade_call_based (c : CallCode) (all_inputs : List String) :
    Except PyExc (List TestResult × RunMeta) :=
  let inputs := all_inputs.map replace_newlines
  match c.convertOutputs with
  | .error e => .error e
  | .ok outs => gradeCallLoop c [] (inputs.zip outs)

/-- The test-case loop of `grade_stdio` (code_verifier.py lines 450-553).
On success the captured output is compared to the expected text: a
line-count mismatch is an immediate `-2` with the dedicated message,
before any per-line comparison. -/
def gradeStdioLoop (c : StdioCode) (acc : List TestResult) :
    List (String × String) → Except PyExc (List TestResult × RunMeta)
  | [] => .ok (acc, .time)
  | (gt_inp, gt_out) :: rest =>
    match c.run gt_inp with
    | .error e =>
      if e.isException then
        if e.isTimeout then
          .ok (acc ++ [.sentinel (-3)],
            .info ⟨some e.reprStr, -3, "Time Limit Exceeded",
              some (truncatefn gt_inp), none, some (truncatefn gt_out)⟩)
        else
          .ok (acc ++ [.sentinel (-300)],
            .info ⟨some e.reprStr, -4, "Runtime Error",
              some (truncatefn gt_inp), none, some (truncatefn gt_out)⟩)
      else .error e
    | .ok prediction =>
      let pLines := get_stripped_lines prediction
      let gLines := get_stripped_lines gt_out
      if pLines.length ≠ gLines.length then
        .ok (acc ++ [.sentinel (-2)],
          .info ⟨none, -2, "Wrong answer: mismatched output length",
            some (truncatefn gt_inp), some (truncatefn prediction),
            some (truncatefn gt_out)⟩)
      else
        match checkLinesGo 0 (pLines.zip gLines) with
        | some m =>
          .ok (acc ++ [.sentinel (-2)],
            .info ⟨none, -2, m,
              some (truncatefn gt_inp), some (truncatefn prediction),
              some (truncatefn gt_out)⟩)
        | none => gradeStdioLoop c (acc ++ [.boolean true]) rest

/-- `grade_stdio` (code_verifier.py): compile the wrapped code once
(exceptions propagate — nothing catches them here), return `[-200]` when
the wrapper function is missing, otherwise run the test-case loop. -/
def grade_stdio (c : StdioCode) (tests : List (String × String)) :
    Except PyExc (List TestResult × RunMeta) :=
  match c.compileResult with
  | .error e => .error e
  | .ok _ =>
    if !c.hasWrappedFunction then
      .ok ([.sentinel (-200)], .msgSet "Compile Error while running the testcases.")
    else gradeStdioLoop c [] tests

/-! ## run_test -/

/-- A problem record as `run_test` consumes it, with the host-level
observations made of it: whether `"</think>"` occurs in the generation,
the code blocks the `has_code` regex extracts, the starter code, the
resolved input/output text pairs, whether `extract_functions` parses the
joined blocks (call-based only), and the behaviour oracles for the two
invocation protocols. -/
structure ProblemCheck : Type where
  generationHasThink : Bool
  codeBlocks : List String
  starter_code : String
  input_output : List (String × String)
  extractOk : Bool
  callCode : CallCode
  stdioCode : StdioCode

/-- The extracted code-block list after dropping a leading
`"Your code\n"` block (run_test lines 570-571). -/
def filteredBlocks (p : ProblemCheck) : List String :=
  if p.codeBlocks.length ≥ 1 && p.codeBlocks.head? == some "Your code\n" then
    p.codeBlocks.tail
  else p.codeBlocks

/-- `run_test` (code_verifier.py lines 556-646): drop a leading
`"Your code\n"` block, reject generations without `"</think>"` or without
code (`[-100]`), dispatch on `starter_code` to the stdio or call-based
grader, and catch `Exception`s from the graders as `[-4]` with a
description.  Exceptions that are not `Exception` subclasses are not
caught by the `except Exception` handlers and escape.  The `timeout`
argument drives the real-time alarms, which the oracles observe; it does
not otherwise influence control flow. -/
def run_test (p : ProblemCheck) (timeout : Nat) :
    Except PyExc (List TestResult × RunMeta) :=
  let _ := timeout
  let generation := filteredBlocks p
  if !p.generationHasThink then
    .ok ([.sentinel (-100)], .msg "No code found or code is incomplete.")
  else if generation.length = 0 then
    .ok ([.sentinel (-100)], .msg "No code found or code is incomplete.")
  else if p.starter_code = "" then
    match grade_stdio p.stdioCode p.input_output with
    | .ok r => .ok r
    | .error e =>
      if e.isException then
        .ok ([.sentinel (-4)], .msg ("Stdin-based Error as " ++ e.strStr))
      else .error e
  else
    if !p.extractOk then .ok ([.sentinel (-200)], .msg "Compile Error")
    else
      match grade_call_based p.callCode (p.input_output.map Prod.fst) with
      | .ok r => .ok r
      | .error e =>
        if e.isException then
          .ok ([.sentinel (-4)], .msg ("Call-based Error as " ++ e.strStr))
        else .error e

/-! ## Benchmark aggregation (evaluate_livecodebench.py)

`compute_accuracy` walks the graded records accumulating
`correct += response_entry["correctness"]` and `total += 1`, then reports
`accuracy = 100.0 * correct / total` (and `0.0` for an empty run).
-/

/-- Fraction division (the divisor's numerator is positive wherever this
is applied). -/
def qDiv (a b : PyQ) : PyQ := ⟨a.num * b.den, a.den * b.num⟩

/-- The accumulation loop of `compute_accuracy` (lines 183-192): count of
passing generations and total count. -/
def aggregate_counts (flags : List Bool) : Nat × Nat :=
  flags.foldl (fun ct b => (ct.1 + (if b then 1 else 0), ct.2 + 1)) (0, 0)

/-- The `"accuracy"` field of the overall results
(`100.0 * correct / total if total > 0 else 0.0`, line 217). -/
def overall_accuracy (flags : List Bool) : PyQ :=
  let ct := aggregate_counts flags
  if 0 < ct.2 then qDiv (qMul ⟨100, 1⟩ (intQ ct.1)) (intQ ct.2) else ⟨0, 1⟩

/-! ## Dataset deduplication (dedup_datasets.py)

The deduplicator's inputs are JSON records; a record is modelled by the
fields `_extract_text_content` reads (all stringified, as `str()` is
applied), other keys being irrelevant to deduplication.  SHA-256 hashing
(`_calculate_hash`) is used only for equality comparison and is modelled
as an injective function (the identity).  The `datasketch` MinHash-LSH
index is external and probabilistic; it is modelled at the idealised
level the specification assumes: `lsh.query` returns every inserted key
(complete candidate generation), in insertion order.
-/

/-- Module constant `MIN_TEXT_LENGTH = 3`. -/
def MIN_TEXT_LENGTH : Nat := 3

/-- Module constant `DEFAULT_LSH_THRESHOLD = 0.8`. -/
def DEFAULT_LSH_THRESHOLD : PyQ := ⟨8, 10⟩

/-- Module constant `DEFAULT_LEVENSHTEIN_THRESHOLD = 0.2`. -/
def DEFAULT_LEVENSHTEIN_THRESHOLD : PyQ := ⟨2, 10⟩

/-- Module constant `DEFAULT_NUM_PERM = 128`. -/
def DEFAULT_NUM_PERM : Nat := 128

/-- A dataset record, by the text fields `_extract_text_content` reads. -/
structure Sample : Type where
  question : Option String
  query : Option String
  text : Option String
  prompt : Option String
  input : Option String
  context : Option String
  choices : Option (List String)
deriving Repr, DecidableEq

/-- `" ".join(parts)`. -/
def joinSpace : List String → String
  | [] => ""
  | [x] => x
  | x :: xs => x ++ " " ++ joinSpace xs

/-- `_extract_text_content`: the present fields among
question/query/text/prompt/input/context in that order, then the
`choices` entries, joined with single spaces. -/
def extract_text_content (s : Sample) : String :=
  let parts := [s.question, s.query, s.text, s.prompt, s.input, s.context].filterMap id
  let parts := parts ++ (match s.choices with | some cs => cs | none => [])
  joinSpace parts

/-- `_normalize_text`: `text.lower().strip()`. -/
def normalize_text (text : String) : String :=
  pyStrip (pyLower text)

/-- `_calculate_hash` computes the SHA-256 hex digest of the text; only
digest equality is ever used, so collision-free hashing is modelled by
the identity function. -/
def calculate_hash (text : String) : String := text

/-- The normalized canonical text of a record
(`_normalize_text(_extract_text_content(sample))`, lines 104-105 and
126-127). -/
def sampleText (s : Sample) : String :=
  normalize_text (extract_text_content s)

/-- The hash key computed in the exact-dedup loop body (line 106). -/
def sampleKey (s : Sample) : String :=
  calculate_hash (sampleText s)

/-- The loop of `deduplicate_exact` with explicit index and seen-hash
set: first occurrence of each hash is kept, repeats are recorded in the
duplicate index set. -/
def dedupExactGo : List Sample → Nat → Finset String → List Sample × Finset Nat
  | [], _, _ => ([], ∅)
  | s :: rest, i, seen =>
    if sampleKey s ∈ seen then
      let r := dedupExactGo rest (i + 1) seen
      (r.1, insert i r.2)
    else
      let r := dedupExactGo rest (i + 1) (insert (sampleKey s) seen)
      (s :: r.1, r.2)

/-- `deduplicate_exact` (dedup_datasets.py lines 95-115). -/
def deduplicate_exact (dataset : List Sample) : List Sample × Finset Nat :=
  dedupExactGo dataset 0 ∅

/-- One dynamic-programming row step of the Levenshtein distance:
`pdiag` is the previous row's entry one column back, `left` the entry
just computed in the new row. -/
def levRowGo (a : Char) : List Char → List Nat → Nat → Nat → List Nat
  | [], _, _, _ => []
  | b :: bs, prev, pdiag, left =>
    let pj := prev.headD 0
    let cur := min (pj + 1) (min (left + 1) (pdiag + (if a = b then 0 else 1)))
    cur :: levRowGo a bs prev.tail pj cur

/-- Advance the Levenshtein DP by one character of the first string. -/
def levRow (a : Char) (bs : List Char) (prevRow : List Nat) : List Nat :=
  match prevRow with
  | [] => []
  | p0 :: rest => (p0 + 1) :: levRowGo a bs rest p0 (p0 + 1)

/-- Levenshtein edit distance (the `Levenshtein.distance` library call)
as the standard dynamic program over rows. -/
def levenshtein_distance (s t : String) : Nat :=
  (s.data.foldl (fun row a => levRow a t.data row) (List.range (t.data.length + 1))).getLastD 0

/-- `_calculate_levenshtein_similarity`: `1 - dist / max_len`, and `1.0`
when both strings are empty. -/
def calculate_levenshtein_similarity (t1 t2 : String) : PyQ :=
  let max_len := max t1.length t2.length
  if max_len = 0 then ⟨1, 1⟩
  else qSub ⟨1, 1⟩ ⟨(levenshtein_distance t1 t2 : Int), (max_len : Int)⟩

/-- The deduplicator's configuration (`DatasetDeduplicator.__init__`);
`lsh_threshold` and `num_perm` only parametrise the external LSH index. -/
structure DatasetDeduplicator : Type where
  lsh_threshold : PyQ
  levenshtein_threshold : PyQ
  num_perm : Nat
deriving Repr, DecidableEq

/-- A deduplicator with the module's default thresholds. -/
def defaultDeduplicator : DatasetDeduplicator :=
  ⟨DEFAULT_LSH_THRESHOLD, DEFAULT_LEVENSHTEIN_THRESHOLD, DEFAULT_NUM_PERM⟩

/-- The `texts` dictionary of `deduplicate_near`: index and normalized
text of every record at least `MIN_TEXT_LENGTH` characters long, in
insertion (index) order; records below the length bound are skipped. -/
def buildTexts : List Sample → Nat → List (Nat × String)
  | [], _ => []
  | s :: rest, i =>
    if (sampleText s).length < MIN_TEXT_LENGTH then buildTexts rest (i + 1)
    else (i, sampleText s) :: buildTexts rest (i + 1)

/-- `texts[candidate]` dictionary access (every queried key is present). -/
def textOf (texts : List (Nat × String)) (i : Nat) : String :=
  match texts.lookup i with
  | some t => t
  | none => ""

/-- The candidate loop of `deduplicate_near` (lines 148-166) for a fixed
query record `i`: skip the query itself, already-marked duplicates, and
already-checked pairs; otherwise record the pair as checked and, when the
edit similarity of the two normalized texts exceeds
`1 - levenshtein_threshold`, mark the query as duplicate if the candidate
text is strictly longer, the candidate otherwise.  The loop continues
with the same query even after the query itself has been marked. -/
def nearInner (thr : PyQ) (texts : List (Nat × String)) (i : Nat) (ti : String) :
    List Nat → Finset Nat → Finset (Nat × Nat) → Finset Nat × Finset (Nat × Nat)
  | [], dups, checked => (dups, checked)
  | c :: crest, dups, checked =>
    if c = i ∨ c ∈ dups then nearInner thr texts i ti crest dups checked
    else
      let pair := (min i c, max i c)
      if pair ∈ checked then nearInner thr texts i ti crest dups checked
      else
        let checked2 := insert pair checked
        let tc := textOf texts c
        let sim := calculate_levenshtein_similarity ti tc
        if qLt (qSub ⟨1, 1⟩ thr) sim then
          if tc.length > ti.length then
            nearInner thr texts i ti crest (insert i dups) checked2
          else
            nearInner thr texts i ti crest (insert c dups) checked2
        else nearInner thr texts i ti crest dups checked2

/-- The outer loop of `deduplicate_near` (lines 141-166) over all record
indices: records without an indexed text and records already marked
duplicate are skipped; every other record is compared against the LSH
candidates (modelled as all indexed keys, in insertion order). -/
def nearOuter (thr : PyQ) (texts : List (Nat × String)) :
    List Nat → Finset Nat → Finset (Nat × Nat) → Finset Nat
  | [], dups, _ => dups
  | i :: irest, dups, checked =>
    match texts.lookup i with
    | none => nearOuter thr texts irest dups checked
    | some ti =>
      if i ∈ dups then nearOuter thr texts irest dups checked
      else
        let r := nearInner thr texts i ti (texts.map Prod.fst) dups checked
        nearOuter thr texts irest r.1 r.2

/-- The final comprehension of `deduplicate_near`: records whose index is
not marked duplicate, in order. -/
def filterIdxGo {α : Type} (dups : Finset Nat) : List α → Nat → List α
  | [], _ => []
  | s :: rest, i =>
    if i ∈ dups then filterIdxGo dups rest (i + 1)
    else s :: filterIdxGo dups rest (i + 1)

/-- `deduplicate_near` (dedup_datasets.py lines 117-172). -/
def deduplicate_near (d : DatasetDeduplicator) (dataset : List Sample) :
    List Sample × Finset Nat :=
  let texts := buildTexts dataset 0
  let dups := nearOuter d.levenshtein_threshold texts (List.range dataset.length) ∅ ∅
  (filterIdxGo dups dataset 0, dups)

/-- The result report of `deduplicate` (the `processed_at` wall-clock
timestamp is not modelled). -/
structure DedupResult : Type where
  original_size : Nat
  exact_duplicates : Nat
  near_duplicates : Nat
  total_duplicates : Nat
  final_size : Nat
  deduplication_rate : PyQ
  dataset : List Sample
deriving Repr, DecidableEq

/-- `deduplicate` (dedup_datasets.py lines 174-207): run both stages and
assemble the statistics.  `(total_duplicates / original_size) * 100`
raises `ZeroDivisionError` on the empty dataset, modelled as `none`. -/
def deduplicate (d : DatasetDeduplicator) (dataset : List Sample) : Option DedupResult :=
  let original_size := dataset.length
  let e := deduplicate_exact dataset
  let n := deduplicate_near d e.1
  let total_duplicates := e.2.card + n.2.card
  let final_size := n.1.length
  if original_size = 0 then none
  else
    some ⟨original_size, e.2.card, n.2.card, total_duplicates, final_size,
      qMul (qDiv (intQ total_duplicates) (intQ original_size)) ⟨100, 1⟩, n.1⟩

/-! ## Concrete fixtures and auxiliary predicates used by the theorems -/

/-- A stdio behaviour oracle whose submission prints `4`, `5` and `6`. -/
def stdio456 : StdioCode :=
  ⟨.ok (), true, fun _ => .ok "4\n5\n6\n"⟩

/-- A call-based behaviour oracle that always returns `0`. -/
def callZero : CallCode :=
  ⟨.ok [.int 1, .int 2], fun _ => .ok (), fun _ => true, fun _ => .ok (.int 0)⟩

/-- A run of ten generations with exactly seven passes. -/
def sevenOfTen : List Bool :=
  [true, true, true, true, true, true, true, false, false, false]

/-- A `SyntaxError` as raised by `exec` on unparseable source: an
`Exception` subclass, not a timeout, not a `NameError`. -/
def syntaxErrExc : PyExc :=
  ⟨"SyntaxError(invalid syntax)", "invalid syntax", false, false, true⟩

/-- A call-based behaviour oracle that never fails (unused on the stdio
path). -/
def tameCall : CallCode :=
  ⟨.ok [], fun _ => .ok (), fun _ => true, fun _ => .ok (.int 0)⟩

/-- A stdio problem record whose prepared source raises a `SyntaxError`
in the shared compilation step. -/
def c1Problem : ProblemCheck :=
  ⟨true, ["print(1\n"], "", [("1", "1")], true, tameCall,
    ⟨.error syntaxErrExc, true, fun _ => .ok ""⟩⟩

/-- `SystemExit` as raised by `sys.exit(0)`: a `BaseException` that is
not an `Exception` subclass. -/
def sysExitExc : PyExc := ⟨"SystemExit(0)", "0", false, false, false⟩

/-- A call-based problem record whose solution calls `sys.exit(0)` when
invoked (the call-based runner, unlike the stdio `call_method` wrapper,
has no `except SystemExit` guard). -/
def c2Problem : ProblemCheck :=
  ⟨true, ["x\n"], "fn", [("1", "1")], true,
    ⟨.ok [.int 1], fun _ => .ok (), fun _ => true, fun _ => .error sysExitExc⟩,
    ⟨.ok (), true, fun _ => .ok ""⟩⟩

/-- An `Except` outcome whose only possible failure is an `Exception`
subclass. -/
def OnlyTameExc {α : Type} (x : Except PyExc α) : Prop :=
  ∀ e, x = .error e → e.isException = true

/-- A problem record all of whose oracle outcomes raise only `Exception`
subclasses. -/
def TameProblem (p : ProblemCheck) : Prop :=
  OnlyTameExc p.stdioCode.compileResult
  ∧ (∀ s, OnlyTameExc (p.stdioCode.run s))
  ∧ OnlyTameExc p.callCode.convertOutputs
  ∧ (∀ s, OnlyTameExc (p.callCode.compile s))
  ∧ (∀ s, OnlyTameExc (p.callCode.run s))

/-- A record whose only text field is `question`. -/
def sampleQ (q : String) : Sample := ⟨some q, none, none, none, none, none, none⟩

/-- Record A of the C6 counterexample (canonical text of length 10). -/
def nearA : Sample := sampleQ "abcdefghij"

/-- Record B of the C6 counterexample (canonical text of length 11,
within edit distance 1 of A). -/
def nearB : Sample := sampleQ "abcdefghijk"

/-- Record C of the C6 counterexample (canonical text of length 9,
within edit distance 1 of A). -/
def nearC : Sample := sampleQ "abcdefghi"

/-! # Theorems -/

/-! ## Shared helper lemmas -/

mutual

theorem pyEq_refl : ∀ v : PyVal, pyEq v v = true
  | .int n => by simp [pyEq]
  | .float q => by simp [pyEq, qEq]
  | .str s => by simp [pyEq]
  | .list xs => by simp [pyEq, pyEqList_refl xs]
  | .tuple xs => by simp [pyEq, pyEqList_refl xs]

theorem pyEqList_refl : ∀ xs : List PyVal, pyEqList xs xs = true
  | [] => rfl
  | x :: xs => by simp [pyEqList, pyEq_refl x, pyEqList_refl xs]

end

/-- In a result list of the shape `acc ++ [x]` whose prefix entries are
all `True`, any entry that is not `True` sits at the very end. -/
theorem terminal_append (acc : List TestResult)
    (hacc : ∀ a ∈ acc, a = .boolean true) (x : TestResult)
    (i : Nat) (r : TestResult) (hget : (acc ++ [x]).get? i = some r)
    (hr : r ≠ .boolean true) :
    (acc ++ [x]).length = i + 1 := by
  rcases Nat.lt_trichotomy i acc.length with h | h | h
  · rw [List.get?_append h] at hget
    exact absurd (hacc r (List.get?_mem hget)) hr
  · simp [h]
  · have : (acc ++ [x]).length ≤ i := by
      simp only [List.length_append, List.length_singleton]
      omega
    rw [List.get?_eq_none.2 this] at hget
    cases hget

/-- Terminality for the call-based test loop: under an all-`True`
accumulator, any returned entry that is not `True` is the final entry,
and the metadata is not the success metadata. -/
theorem gradeCallLoop_terminal (c : CallCode) :
    ∀ (tests : List (String × PyVal)) (acc : List TestResult),
      (∀ a ∈ acc, a = .boolean true) →
      ∀ (res : List TestResult) (m : RunMeta),
        gradeCallLoop c acc tests = .ok (res, m) →
        ∀ (i : Nat) (r : TestResult), res.get? i = some r → r ≠ .boolean true →
          res.length = i + 1 ∧ isSuccessMeta m = false
  | [], acc, hacc, res, m, h, i, r, hget, hr => by
    simp only [gradeCallLoop, Except.ok.injEq, Prod.mk.injEq] at h
    obtain ⟨hres, hm⟩ := h
    subst hres
    exact absurd (hacc r (List.get?_mem hget)) hr
  | (gt_inp, gt_out) :: rest, acc, hacc, res, m, h, i, r, hget, hr => by
    simp only [gradeCallLoop] at h
    cases hcomp : c.compile gt_inp with
    | error e => rw [hcomp] at h; cases h
    | ok u =>
      rw [hcomp] at h
      by_cases hmain : c.hasRunMain gt_inp
      · simp only [hmain, Bool.not_true, Bool.false_eq_true, if_false] at h
        cases hrun : c.run gt_inp with
        | error e =>
          rw [hrun] at h
          by_cases hexc : e.isException
          · simp only [hexc, if_true] at h
            by_cases htime : e.isTimeout
            · simp only [htime, if_true, Except.ok.injEq, Prod.mk.injEq] at h
              obtain ⟨rfl, rfl⟩ := h
              exact ⟨terminal_append acc hacc _ i r hget hr, rfl⟩
            · simp only [htime, if_false] at h
              by_cases hname : e.isNameError
              · simp only [hname, if_true, Except.ok.injEq, Prod.mk.injEq] at h
                obtain ⟨rfl, rfl⟩ := h
                exact ⟨terminal_append acc hacc _ i r hget hr, rfl⟩
              · simp only [hname, if_false, Except.ok.injEq, Prod.mk.injEq] at h
                obtain ⟨rfl, rfl⟩ := h
                exact ⟨terminal_append acc hacc _ i r hget hr, rfl⟩
          · simp only [hexc, if_false] at h
            cases h
        | ok pred =>
          rw [hrun] at h
          by_cases hcas : cascadeResult pred gt_out
          · simp only [hcas, if_true] at h
            refine gradeCallLoop_terminal c rest (acc ++ [.boolean true]) ?_ res m h i r hget hr
            intro a ha
            rcases List.mem_append.1 ha with ha | ha
            · exact hacc a ha
            · simpa using ha
          · simp only [hcas, if_false, Except.ok.injEq, Prod.mk.injEq] at h
            obtain ⟨rfl, rfl⟩ := h
            exact ⟨terminal_append acc hacc _ i r hget hr, rfl⟩
      · simp only [hmain, Bool.not_false, if_true, Except.ok.injEq, Prod.mk.injEq] at h
        obtain ⟨rfl, rfl⟩ := h
        refine ⟨?_, rfl⟩
        cases i with
        | zero => simp
        | succ j => simp at hget
termination_by tests => tests.length

/-- Terminality for the stdio test loop, as for the call-based loop. -/
theorem gradeStdioLoop_terminal (c : StdioCode) :
    ∀ (tests : List (String × String)) (acc : List TestResult),
      (∀ a ∈ acc, a = .boolean true) →
      ∀ (res : List TestResult) (m : RunMeta),
        gradeStdioLoop c acc tests = .ok (res, m) →
        ∀ (i : Nat) (r : TestResult), res.get? i = some r → r ≠ .boolean true →
          res.length = i + 1 ∧ isSuccessMeta m = false
  | [], acc, hacc, res, m, h, i, r, hget, hr => by
    simp only [gradeStdioLoop, Except.ok.injEq, Prod.mk.injEq] at h
    obtain ⟨hres, hm⟩ := h
    subst hres
    exact absurd (hacc r (List.get?_mem hget)) hr
  | (gt_inp, gt_out) :: rest, acc, hacc, res, m, h, i, r, hget, hr => by
    simp only [gradeStdioLoop] at h
    cases hrun : c.run gt_inp with
    | error e =>
      rw [hrun] at h
      by_cases hexc : e.isException
      · simp only [hexc, if_true] at h
        by_cases htime : e.isTimeout
        · simp only [htime, if_true, Except.ok.injEq, Prod.mk.injEq] at h
          obtain ⟨rfl, rfl⟩ := h
          exact ⟨terminal_append acc hacc _ i r hget hr, rfl⟩
        · simp only [htime, if_false, Except.ok.injEq, Prod.mk.injEq] at h
          obtain ⟨rfl, rfl⟩ := h
          exact ⟨terminal_append acc hacc _ i r hget hr, rfl⟩
      · simp only [hexc, if_false] at h
        cases h
    | ok prediction =>
      rw [hrun] at h
      by_cases hlen :
          (get_stripped_lines prediction).length = (get_stripped_lines gt_out).length
      · simp only [hlen, ne_eq, not_true_eq_false, if_false] at h
        cases hchk : checkLinesGo 0
            ((get_stripped_lines prediction).zip (get_stripped_lines gt_out)) with
        | some msg =>
          rw [hchk] at h
          simp only [Except.ok.injEq, Prod.mk.injEq] at h
          obtain ⟨rfl, rfl⟩ := h
          exact ⟨terminal_append acc hacc _ i r hget hr, rfl⟩
        | none =>
          rw [hchk] at h
          refine gradeStdioLoop_terminal c rest (acc ++ [.boolean true]) ?_ res m h i r hget hr
          intro a ha
          rcases List.mem_append.1 ha with ha | ha
          · exact hacc a ha
          · simpa using ha
      · simp only [hlen, ne_eq, not_false_eq_true, if_true, Except.ok.injEq,
          Prod.mk.injEq] at h
        obtain ⟨rfl, rfl⟩ := h
        exact ⟨terminal_append acc hacc _ i r hget hr, rfl⟩
termination_by tests => tests.length

/-- Terminality transported to `grade_call_based`. -/
theorem grade_call_based_terminal (c : CallCode) (all_inputs : List String)
    (res : List TestResult) (m : RunMeta)
    (h : grade_call_based c all_inputs = .ok (res, m))
    (i : Nat) (r : TestResult) (hget : res.get? i = some r)
    (hr : r ≠ .boolean true) :
    res.length = i + 1 ∧ isSuccessMeta m = false := by
  simp only [grade_call_based] at h
  cases hconv : c.convertOutputs with
  | error e => rw [hconv] at h; cases h
  | ok outs =>
    rw [hconv] at h
    exact gradeCallLoop_terminal c _ [] (by simp) res m h i r hget hr

/-- Terminality transported to `grade_stdio`. -/
theorem grade_stdio_terminal (c : StdioCode) (tests : List (String × String))
    (res : List TestResult) (m : RunMeta)
    (h : grade_stdio c tests = .ok (res, m))
    (i : Nat) (r : TestResult) (hget : res.get? i = some r)
    (hr : r ≠ .boolean true) :
    res.length = i + 1 ∧ isSuccessMeta m = false := by
  simp only [grade_stdio] at h
  cases hcomp : c.compileResult with
  | error e => rw [hcomp] at h; cases h
  | ok u =>
    rw [hcomp] at h
    by_cases hwrap : c.hasWrappedFunction
    · simp only [hwrap, Bool.not_true, Bool.false_eq_true, if_false] at h
      exact gradeStdioLoop_terminal c tests [] (by simp) res m h i r hget hr
    · simp only [hwrap, Bool.not_false, if_true, Except.ok.injEq, Prod.mk.injEq] at h
      obtain ⟨rfl, rfl⟩ := h
      refine ⟨?_, rfl⟩
      cases i with
      | zero => simp
      | succ j => simp at hget

/-- A singleton result list trivially has any entry at the end. -/
theorem singleton_terminal (x : TestResult) (i : Nat) (r : TestResult)
    (hget : [x].get? i = some r) : [x].length = i + 1 := by
  cases i with
  | zero => simp
  | succ j => simp at hget

/-- A fatal sentinel is never the boolean `True`. -/
theorem isFatalCode_ne_boolean_true (r : TestResult) (h : isFatalCode r = true) :
    r ≠ .boolean true := by
  rintro rfl
  simp [isFatalCode] at h

/-! ## C3 -/

/-- C3: Fatal-abort invariant: for every problem and test-case index `i`,
if the result list returned by grading (`grade_call_based`, `grade_stdio`,
or `run_test`) contains a fatal code (`-2`, `-3`, `-4`, `-200` or `-300`)
at index `i`, then the list has exactly `i + 1` entries — nothing beyond
the fatal entry — and the grader returned at that point with a metadata
bundle describing the failure rather than the success metadata. -/
theorem fatal_code_ends_result_list :
    (∀ (c : CallCode) (ins : List String) (res : List TestResult) (m : RunMeta),
       grade_call_based c ins = .ok (res, m) →
       ∀ (i : Nat) (r : TestResult), res.get? i = some r → isFatalCode r = true →
         res.length = i + 1 ∧ isSuccessMeta m = false)
    ∧ (∀ (c : StdioCode) (tests : List (String × String)) (res : List TestResult)
         (m : RunMeta),
       grade_stdio c tests = .ok (res, m) →
       ∀ (i : Nat) (r : TestResult), res.get? i = some r → isFatalCode r = true →
         res.length = i + 1 ∧ isSuccessMeta m = false)
    ∧ (∀ (p : ProblemCheck) (t : Nat) (res : List TestResult) (m : RunMeta),
       run_test p t = .ok (res, m) →
       ∀ (i : Nat) (r : TestResult), res.get? i = some r → isFatalCode r = true →
         res.length = i + 1) := by
  refine ⟨?_, ?_, ?_⟩
  · intro c ins res m h i r hget hf
    exact grade_call_based_terminal c ins res m h i r hget (isFatalCode_ne_boolean_true r hf)
  · intro c tests res m h i r hget hf
    exact grade_stdio_terminal c tests res m h i r hget (isFatalCode_ne_boolean_true r hf)
  · intro p t res m h i r hget hf
    simp only [run_test] at h
    by_cases hth : p.generationHasThink
    · simp only [hth, Bool.not_true, Bool.false_eq_true, if_false] at h
      by_cases hlen : (filteredBlocks p).length = 0
      · simp only [hlen, if_true, Except.ok.injEq, Prod.mk.injEq] at h
        obtain ⟨rfl, rfl⟩ := h
        exact singleton_terminal _ i r hget
      · simp only [hlen, if_false] at h
        by_cases hsc : p.starter_code = ""
        · simp only [hsc, if_true] at h
          cases hg : grade_stdio p.stdioCode p.input_output with
          | ok r0 =>
            rw [hg] at h
            simp only [Except.ok.injEq] at h
            obtain rfl : r0 = (res, m) := h
            exact (grade_stdio_terminal p.stdioCode p.input_output res m hg i r hget
              (isFatalCode_ne_boolean_true r hf)).1
          | error e =>
            rw [hg] at h
            by_cases hexc : e.isException
            · simp only [hexc, if_true, Except.ok.injEq, Prod.mk.injEq] at h
              obtain ⟨rfl, rfl⟩ := h
              exact singleton_terminal _ i r hget
            · simp only [hexc, Bool.false_eq_true, if_false] at h
              cases h
        · simp only [hsc, if_false] at h
          by_cases hex : p.extractOk
          · simp only [hex, Bool.not_true, Bool.false_eq_true, if_false] at h
            cases hg : grade_call_based p.callCode (p.input_output.map Prod.fst) with
            | ok r0 =>
              rw [hg] at h
              simp only [Except.ok.injEq] at h
              obtain rfl : r0 = (res, m) := h
              exact (grade_call_based_terminal p.callCode _ res m hg i r hget
                (isFatalCode_ne_boolean_true r hf)).1
            | error e =>
              rw [hg] at h
              by_cases hexc : e.isException
              · simp only [hexc, if_true, Except.ok.injEq, Prod.mk.injEq] at h
                obtain ⟨rfl, rfl⟩ := h
                exact singleton_terminal _ i r hget
              · simp only [hexc, Bool.false_eq_true, if_false] at h
                cases h
          · simp only [hex, Bool.not_false, if_true, Except.ok.injEq, Prod.mk.injEq] at h
            obtain ⟨rfl, rfl⟩ := h
            exact singleton_terminal _ i r hget
    · simp only [hth, Bool.not_false, if_true, Except.ok.injEq, Prod.mk.injEq] at h
      obtain ⟨rfl, rfl⟩ := h
      exact singleton_terminal _ i r hget

/-- C3 witness: a concrete stdio grading whose first test case answers
wrongly yields a fatal `-2` at index 0, and the fatal-abort theorem gives
that the result list ends there. -/
theorem fatal_code_ends_result_list_witness :
    grade_stdio stdio456 [("x", "4\n5\n")] =
      .ok ([.sentinel (-2)],
        .info ⟨none, -2, "Wrong answer: mismatched output length",
          some "x", some "4\n5\n6\n", some "4\n5\n"⟩)
    ∧ [TestResult.sentinel (-2)].length = 0 + 1 :=
  ⟨rfl, (fatal_code_ends_result_list.2.1 stdio456 [("x", "4\n5\n")] _ _ rfl 0 _ rfl rfl).1⟩

/-! ## C4 -/

/-- C4 counterexample: with two test cases whose first answer is wrong,
`grade_call_based` records `false` and returns at once — the result list
has a single entry, so grading did not continue with the remaining test
case, contradicting that a `false` outcome is non-fatal. -/
theorem false_outcome_aborts_grading :
    grade_call_based callZero ["a", "b"] =
      .ok ([.boolean false],
        .info ⟨none, -2, "Wrong Answer", some "a", some "0", some "1"⟩)
    ∧ [TestResult.boolean false].length ≠ 2 :=
  ⟨rfl, by decide⟩

/-- C4 (amended): a `false` outcome recorded by the call-based grader is
terminal, exactly like the fatal sentinels: whenever the result vector
has `false` at index `i`, the vector has exactly `i + 1` entries and
grading did not continue with the remaining test cases of the problem.
(Only `grade_call_based` ever records `false`; `grade_stdio` records
wrong answers as `-2`.) -/
theorem false_outcome_is_terminal
    (c : CallCode) (ins : List String) (res : List TestResult) (m : RunMeta)
    (h : grade_call_based c ins = .ok (res, m))
    (i : Nat) (hi : res.get? i = some (.boolean false)) :
    res.length = i + 1 :=
  (grade_call_based_terminal c ins res m h i _ hi (by simp)).1

/-- C4 witness: the terminality of `false` applied to the concrete
two-test grading above. -/
theorem false_outcome_is_terminal_witness :
    [TestResult.boolean false].length = 0 + 1 :=
  false_outcome_is_terminal callZero ["a", "b"] _
    (.info ⟨none, -2, "Wrong Answer", some "a", some "0", some "1"⟩) rfl 0 rfl

/-! ## C5 -/

/-- The accumulation loop counts passes and records. -/
theorem aggregate_counts_spec (flags : List Bool) :
    aggregate_counts flags = (flags.count true, flags.length) := by
  suffices h : ∀ c t : Nat,
      flags.foldl (fun ct b => (ct.1 + (if b then 1 else 0), ct.2 + 1)) (c, t) =
        (c + flags.count true, t + flags.length) by
    simpa [aggregate_counts] using h 0 0
  induction flags with
  | nil => intro c t; simp
  | cons b rest ih =>
    intro c t
    cases b <;> simp [List.count_cons, ih] <;> omega

/-- C5 counterexample: for 7 passes out of 10 the reported overall
accuracy field equals `70.0` — the value is a percentage — and not
`0.70` as claimed. -/
theorem overall_accuracy_is_percent_not_fraction :
    qEq (overall_accuracy sevenOfTen) ⟨70, 100⟩ = false
    ∧ qEq (overall_accuracy sevenOfTen) ⟨70, 1⟩ = true := by
  decide

/-- C5 (amended): the overall accuracy field is `100 * correct / total`:
for a run of 10 graded problems, each contributing one generation, of
which exactly 7 pass, the reported overall accuracy is exactly `70.0`
(i.e. 70 percent). -/
theorem overall_accuracy_seven_of_ten (flags : List Bool)
    (hlen : flags.length = 10) (hcount : flags.count true = 7) :
    qEq (overall_accuracy flags) ⟨70, 1⟩ = true := by
  simp [overall_accuracy, aggregate_counts_spec, hlen, hcount, qDiv, qMul, intQ, qEq]

/-- C5 witness: the amended accuracy theorem at the concrete run. -/
theorem overall_accuracy_seven_of_ten_witness :
    sevenOfTen.length = 10 ∧ sevenOfTen.count true = 7
    ∧ qEq (overall_accuracy sevenOfTen) ⟨70, 1⟩ = true :=
  ⟨by decide, by decide, overall_accuracy_seven_of_ten sevenOfTen (by decide) (by decide)⟩

/-! ## C7 -/

/-- C7: Stdin-based line comparison: for every stdin-based test case
whose execution succeeds, if the stripped predicted output has a
different number of lines than the stripped expected output, the grader
immediately records `-2` for that test and returns — the remaining test
cases are dropped and the metadata carries the dedicated
mismatched-length message, so no per-line exact or numeric comparison
was attempted. -/
theorem stdio_length_mismatch_immediate_wrong_answer
    (c : StdioCode) (acc : List TestResult) (gt_inp gt_out prediction : String)
    (rest : List (String × String))
    (hrun : c.run gt_inp = .ok prediction)
    (hlen : (get_stripped_lines prediction).length ≠ (get_stripped_lines gt_out).length) :
    gradeStdioLoop c acc ((gt_inp, gt_out) :: rest) =
      .ok (acc ++ [.sentinel (-2)],
        .info ⟨none, -2, "Wrong answer: mismatched output length",
          some (truncatefn gt_inp), some (truncatefn prediction),
          some (truncatefn gt_out)⟩) := by
  simp [gradeStdioLoop, hrun, hlen]

/-- C7 witness: predicted `"4\n5\n6\n"` against expected `"4\n5\n"`
fails immediately on the length mismatch. -/
theorem stdio_length_mismatch_immediate_wrong_answer_witness :
    ((stdio456.run "x" = .ok "4\n5\n6\n")
    ∧ (get_stripped_lines "4\n5\n6\n").length ≠ (get_stripped_lines "4\n5\n").length)
    ∧ gradeStdioLoop stdio456 [] [("x", "4\n5\n")] =
      .ok ([.sentinel (-2)],
        .info ⟨none, -2, "Wrong answer: mismatched output length",
          some (truncatefn "x"), some (truncatefn "4\n5\n6\n"),
          some (truncatefn "4\n5\n")⟩) :=
  ⟨⟨rfl, by decide⟩,
    stdio_length_mismatch_immediate_wrong_answer stdio456 [] "x" "4\n5\n" "4\n5\n6\n" []
      rfl (by decide)⟩

/-! ## C8 -/

/-- C8: Call-based equivalence cascade: a returned tuple is judged equal
to an expected list with the same elements; a float prediction within the
`np.allclose` tolerance of the expected float passes; and the concrete
list `[1,2,3]` against expected `[1,2,4]` fails. -/
theorem call_based_equivalence_cascade :
    (∀ xs : List PyVal, cascadeResult (.tuple xs) (.list xs) = true)
    ∧ (∀ p g : PyQ, npIsClose p g = true → cascadeResult (.float p) (.float g) = true)
    ∧ cascadeResult (.list [.int 1, .int 2, .int 3]) (.list [.int 1, .int 2, .int 4]) = false := by
  refine ⟨?_, ?_, by decide⟩
  · intro xs
    simp [cascadeResult, pyEq, pyEqList_refl xs]
  · intro p g h
    simp [cascadeResult, pyFloat?, h]

/-- C8 witness: the cascade at the concrete examples of the claim —
return value `(1,2)` vs expected `[1,2]`, and `3.0000001` vs `3.0`
(which are within the default tolerance). -/
theorem call_based_equivalence_cascade_witness :
    cascadeResult (.tuple [.int 1, .int 2]) (.list [.int 1, .int 2]) = true
    ∧ npIsClose ⟨30000001, 10000000⟩ ⟨3, 1⟩ = true
    ∧ cascadeResult (.float ⟨30000001, 10000000⟩) (.float ⟨3, 1⟩) = true :=
  ⟨call_based_equivalence_cascade.1 [.int 1, .int 2], by decide,
    call_based_equivalence_cascade.2.1 ⟨30000001, 10000000⟩ ⟨3, 1⟩ (by decide)⟩

/-! ## C1 -/

/-- C1 counterexample: for a stdio problem whose prepared source raises a
`SyntaxError` during the shared compilation step, `run_test` returns the
result list `[-4]` with the catch-all description — not `[-200]` — so a
compile-step exception is not classified as a compile error. -/
theorem compile_exception_returns_minus_four :
    run_test c1Problem 6 =
      .ok ([.sentinel (-4)], .msg "Stdin-based Error as invalid syntax")
    ∧ [TestResult.sentinel (-4)] ≠ [TestResult.sentinel (-200)] :=
  ⟨rfl, by decide⟩

/-- C1 (amended): an exception raised during the shared compilation step
propagates out of `grade_stdio` (which catches nothing around
`compile_code`) and is caught at `run_test`'s dispatch boundary, which
aborts grading for the whole problem immediately with the result list
`[-4]` — a single entry, no test case executed — plus a description
string; the `[-200]` compile-error result arises instead when compilation
succeeds but the expected wrapper function is missing. -/
theorem compile_exception_caught_at_run_test_boundary
    (p : ProblemCheck) (t : Nat) (e : PyExc)
    (hth : p.generationHasThink = true)
    (hblocks : (filteredBlocks p).length ≠ 0)
    (hstdio : p.starter_code = "")
    (hcomp : p.stdioCode.compileResult = .error e)
    (hexc : e.isException = true) :
    run_test p t =
      .ok ([.sentinel (-4)], .msg ("Stdin-based Error as " ++ e.strStr)) := by
  simp [run_test, hth, hblocks, hstdio, grade_stdio, hcomp, hexc]

/-- C1 witness: the amended boundary theorem at the concrete
syntax-error problem. -/
theorem compile_exception_caught_at_run_test_boundary_witness :
    (c1Problem.generationHasThink = true
    ∧ (filteredBlocks c1Problem).length ≠ 0
    ∧ c1Problem.starter_code = ""
    ∧ c1Problem.stdioCode.compileResult = .error syntaxErrExc
    ∧ syntaxErrExc.isException = true)
    ∧ run_test c1Problem 6 =
      .ok ([.sentinel (-4)], .msg ("Stdin-based Error as " ++ syntaxErrExc.strStr)) :=
  ⟨⟨rfl, by decide, rfl, rfl, rfl⟩,
    compile_exception_caught_at_run_test_boundary c1Problem 6 syntaxErrExc rfl
      (by decide) rfl rfl rfl⟩

/-! ## C2 -/

/-- C2 counterexample: a call-based solution raising `SystemExit` — which
is not an `Exception` subclass — passes through both `except Exception`
handlers, so `run_test` itself raises instead of returning a sentinel
result. -/
theorem run_test_raises_on_system_exit :
    run_test c2Problem 6 = .error sysExitExc := rfl

/-- An error escaping the call-based loop originates in one of the
oracles, hence is tame when they are. -/
theorem gradeCallLoop_error_tame (c : CallCode)
    (hcomp : ∀ s, OnlyTameExc (c.compile s)) (hrun : ∀ s, OnlyTameExc (c.run s)) :
    ∀ (tests : List (String × PyVal)) (acc : List TestResult) (e : PyExc),
      gradeCallLoop c acc tests = .error e → e.isException = true
  | [], acc, e, h => by simp [gradeCallLoop] at h
  | (gt_inp, gt_out) :: rest, acc, e, h => by
    simp only [gradeCallLoop] at h
    cases hc : c.compile gt_inp with
    | error e0 =>
      rw [hc] at h
      have he0 := hcomp gt_inp e0 hc
      cases h
      exact he0
    | ok u =>
      rw [hc] at h
      by_cases hmain : c.hasRunMain gt_inp
      · simp only [hmain, Bool.not_true, Bool.false_eq_true, if_false] at h
        cases hr : c.run gt_inp with
        | error e0 =>
          rw [hr] at h
          by_cases hexc : e0.isException
          · simp only [hexc, if_true] at h
            by_cases htime : e0.isTimeout <;>
              by_cases hname : e0.isNameError <;>
              simp [htime, hname] at h
          · simp only [hexc, Bool.false_eq_true, if_false] at h
            have he0 := hrun gt_inp e0 hr
            cases h
            exact he0
        | ok pred =>
          rw [hr] at h
          by_cases hcas : cascadeResult pred gt_out
          · simp only [hcas, if_true] at h
            exact gradeCallLoop_error_tame c hcomp hrun rest (acc ++ [.boolean true]) e h
          · simp [hcas] at h
      · simp [hmain] at h
termination_by tests => tests.length

/-- An error escaping the stdio loop originates in the run oracle, hence
is tame when it is. -/
theorem gradeStdioLoop_error_tame (c : StdioCode)
    (hrun : ∀ s, OnlyTameExc (c.run s)) :
    ∀ (tests : List (String × String)) (acc : List TestResult) (e : PyExc),
      gradeStdioLoop c acc tests = .error e → e.isException = true
  | [], acc, e, h => by simp [gradeStdioLoop] at h
  | (gt_inp, gt_out) :: rest, acc, e, h => by
    simp only [gradeStdioLoop] at h
    cases hr : c.run gt_inp with
    | error e0 =>
      rw [hr] at h
      by_cases hexc : e0.isException
      · simp only [hexc, if_true] at h
        by_cases htime : e0.isTimeout <;> simp [htime] at h
      · simp only [hexc, Bool.false_eq_true, if_false] at h
        have he0 := hrun gt_inp e0 hr
        cases h
        exact he0
    | ok prediction =>
      rw [hr] at h
      by_cases hlen :
          (get_stripped_lines prediction).length = (get_stripped_lines gt_out).length
      · simp only [hlen, ne_eq, not_true_eq_false, if_false] at h
        cases hchk : checkLinesGo 0
            ((get_stripped_lines prediction).zip (get_stripped_lines gt_out)) with
        | some msg => rw [hchk] at h; cases h
        | none =>
          rw [hchk] at h
          exact gradeStdioLoop_error_tame c hrun rest (acc ++ [.boolean true]) e h
      · simp [hlen] at h
termination_by tests => tests.length

/-- Tameness transported to `grade_stdio`. -/
theorem grade_stdio_error_tame (c : StdioCode)
    (hcomp : OnlyTameExc c.compileResult) (hrun : ∀ s, OnlyTameExc (c.run s))
    (tests : List (String × String)) (e : PyExc)
    (h : grade_stdio c tests = .error e) : e.isException = true := by
  simp only [grade_stdio] at h
  cases hc : c.compileResult with
  | error e0 =>
    rw [hc] at h
    have he0 := hcomp e0 hc
    cases h
    exact he0
  | ok u =>
    rw [hc] at h
    by_cases hwrap : c.hasWrappedFunction
    · simp only [hwrap, Bool.not_true, Bool.false_eq_true, if_false] at h
      exact gradeStdioLoop_error_tame c hrun tests [] e h
    · simp [hwrap] at h

/-- Tameness transported to `grade_call_based`. -/
theorem grade_call_based_error_tame (c : CallCode)
    (hconv : OnlyTameExc c.convertOutputs)
    (hcomp : ∀ s, OnlyTameExc (c.compile s)) (hrun : ∀ s, OnlyTameExc (c.run s))
    (ins : List String) (e : PyExc)
    (h : grade_call_based c ins = .error e) : e.isException = true := by
  simp only [grade_call_based] at h
  cases hc : c.convertOutputs with
  | error e0 =>
    rw [hc] at h
    have he0 := hconv e0 hc
    cases h
    exact he0
  | ok outs =>
    rw [hc] at h
    exact gradeCallLoop_error_tame c hcomp hrun _ [] e h

/-- C2 (amended): `run_test` is exception-safe for the `Exception`
hierarchy: whenever every oracle outcome of the problem record raises
only `Exception` subclasses, `run_test` returns a result/metadata pair —
every internal exception is translated into a sentinel result list with a
description.  (A `BaseException` outside that hierarchy, such as
`SystemExit` from a call-based solution, escapes: see the
counterexample.) -/
theorem run_test_exception_safe (p : ProblemCheck) (t : Nat) (h : TameProblem p) :
    ∃ r, run_test p t = .ok r := by
  obtain ⟨h1, h2, h3, h4, h5⟩ := h
  simp only [run_test]
  by_cases hth : p.generationHasThink
  · simp only [hth, Bool.not_true, Bool.false_eq_true, if_false]
    by_cases hlen : (filteredBlocks p).length = 0
    · simp only [hlen, if_true]
      exact ⟨_, rfl⟩
    · simp only [hlen, if_false]
      by_cases hsc : p.starter_code = ""
      · simp only [hsc, if_true]
        cases hg : grade_stdio p.stdioCode p.input_output with
        | ok r0 => exact ⟨r0, rfl⟩
        | error e =>
          have he : e.isException = true :=
            grade_stdio_error_tame p.stdioCode h1 h2 p.input_output e hg
          simp only [he, if_true]
          exact ⟨_, rfl⟩
      · simp only [hsc, if_false]
        by_cases hex : p.extractOk
        · simp only [hex, Bool.not_true, Bool.false_eq_true, if_false]
          cases hg : grade_call_based p.callCode (p.input_output.map Prod.fst) with
          | ok r0 => exact ⟨r0, rfl⟩
          | error e =>
            have he : e.isException = true :=
              grade_call_based_error_tame p.callCode h3 h4 h5 _ e hg
            simp only [he, if_true]
            exact ⟨_, rfl⟩
        · simp only [hex, Bool.not_false, if_true]
          exact ⟨_, rfl⟩
  · simp only [hth, Bool.not_false, if_true]
    exact ⟨_, rfl⟩

/-- C2 witness: exception safety applied to a concrete problem record
whose oracles never raise. -/
theorem run_test_exception_safe_witness :
    ∃ r, run_test
      (⟨true, ["x\n"], "", [("1", "1")], true, tameCall,
        ⟨.ok (), true, fun _ => .ok "1"⟩⟩ : ProblemCheck) 6 = .ok r :=
  run_test_exception_safe _ 6 (by
    refine ⟨fun e h => ?_, fun s e h => ?_, fun e h => ?_,
      fun s e h => ?_, fun s e h => ?_⟩ <;> cases h)

/-! ## C9 -/

/-- Every record kept by the exact-dedup loop has a key outside the seen
set, and the kept keys are pairwise distinct. -/
theorem dedupExactGo_fresh_keys :
    ∀ (l : List Sample) (i : Nat) (seen : Finset String),
      (∀ s ∈ (dedupExactGo l i seen).1, sampleKey s ∉ seen)
      ∧ ((dedupExactGo l i seen).1.map sampleKey).Nodup
  | [], i, seen => by simp [dedupExactGo]
  | s :: rest, i, seen => by
    by_cases h : sampleKey s ∈ seen
    · simpa [dedupExactGo, h] using dedupExactGo_fresh_keys rest (i + 1) seen
    · have ih := dedupExactGo_fresh_keys rest (i + 1) (insert (sampleKey s) seen)
      simp only [dedupExactGo, h, if_false]
      constructor
      · intro t ht
        rcases List.mem_cons.1 ht with rfl | ht
        · exact h
        · have := ih.1 t ht
          simp only [Finset.mem_insert] at this
          exact fun hc => this (Or.inr hc)
      · simp only [List.map_cons, List.nodup_cons]
        refine ⟨?_, ih.2⟩
        intro hc
        rcases List.mem_map.1 hc with ⟨t, ht, hkey⟩
        have := ih.1 t ht
        simp only [Finset.mem_insert] at this
        exact this (Or.inl hkey)

/-- A list whose keys are fresh and pairwise distinct passes the
exact-dedup loop unchanged. -/
theorem dedupExactGo_of_fresh :
    ∀ (l : List Sample) (i : Nat) (seen : Finset String),
      (∀ s ∈ l, sampleKey s ∉ seen) → (l.map sampleKey).Nodup →
      dedupExactGo l i seen = (l, ∅)
  | [], i, seen, _, _ => by simp [dedupExactGo]
  | s :: rest, i, seen, hfresh, hnodup => by
    have h : sampleKey s ∉ seen := hfresh s (List.mem_cons_self s rest)
    simp only [List.map_cons, List.nodup_cons] at hnodup
    have hrec : dedupExactGo rest (i + 1) (insert (sampleKey s) seen) = (rest, ∅) := by
      refine dedupExactGo_of_fresh rest (i + 1) _ ?_ hnodup.2
      intro t ht
      simp only [Finset.mem_insert]
      rintro (hkey | hseen)
      · exact hnodup.1 (List.mem_map.2 ⟨t, ht, hkey⟩)
      · exact hfresh t (List.mem_cons_of_mem s ht) hseen
    simp [dedupExactGo, h, hrec]

/-- C9: Idempotence of exact dedup: applying stage-1 exact deduplication
to its own output removes nothing further — the second application
returns the same list unchanged and an empty duplicate set. -/
theorem deduplicate_exact_idempotent (dataset : List Sample) :
    deduplicate_exact (deduplicate_exact dataset).1 =
      ((deduplicate_exact dataset).1, ∅) := by
  have h := dedupExactGo_fresh_keys dataset 0 ∅
  exact dedupExactGo_of_fresh _ 0 ∅ (fun s _ => Finset.not_mem_empty _) h.2

/-! ## C10 -/

/-- The exact-dedup loop conserves records: kept plus duplicates equals
the input length, and every duplicate index lies in the processed
window. -/
theorem dedupExactGo_count :
    ∀ (l : List Sample) (i : Nat) (seen : Finset String),
      (dedupExactGo l i seen).1.length + (dedupExactGo l i seen).2.card = l.length
      ∧ ∀ j ∈ (dedupExactGo l i seen).2, i ≤ j ∧ j < i + l.length
  | [], i, seen => by simp [dedupExactGo]
  | s :: rest, i, seen => by
    have ih1 := dedupExactGo_count rest (i + 1) seen
    have ih2 := dedupExactGo_count rest (i + 1) (insert (sampleKey s) seen)
    by_cases h : sampleKey s ∈ seen
    · simp only [dedupExactGo, h, if_true, List.length_cons]
      have hnot : i ∉ (dedupExactGo rest (i + 1) seen).2 := by
        intro hc
        have := (ih1.2 i hc).1
        omega
      constructor
      · rw [Finset.card_insert_of_not_mem hnot]
        omega
      · intro j hj
        rcases Finset.mem_insert.1 hj with rfl | hj
        · omega
        · have := ih1.2 j hj
          omega
    · simp only [dedupExactGo, h, if_false, List.length_cons]
      constructor
      · have := ih2.1
        omega
      · intro j hj
        have := ih2.2 j hj
        omega

/-- Indices entering `buildTexts` lie in the processed window. -/
theorem buildTexts_bound :
    ∀ (l : List Sample) (i : Nat), ∀ p ∈ buildTexts l i, i ≤ p.1 ∧ p.1 < i + l.length
  | [], i => by simp [buildTexts]
  | s :: rest, i => by
    have ih := buildTexts_bound rest (i + 1)
    by_cases h : (sampleText s).length < MIN_TEXT_LENGTH
    · simp only [buildTexts, h, if_true, List.length_cons]
      intro p hp
      have := ih p hp
      omega
    · simp only [buildTexts, h, if_false, List.length_cons]
      intro p hp
      rcases List.mem_cons.1 hp with rfl | hp
      · exact ⟨le_refl _, Nat.lt_add_of_pos_right (Nat.succ_pos _)⟩
      · have := ih p hp
        omega

/-- The candidate loop only adds the query index or candidate indices to
the duplicate set. -/
theorem nearInner_dups_bound (P : Nat → Prop) (thr : PyQ)
    (texts : List (Nat × String)) (i : Nat) (ti : String) :
    ∀ (cands : List Nat) (dups : Finset Nat) (checked : Finset (Nat × Nat)),
      (∀ j ∈ dups, P j) → P i → (∀ c ∈ cands, P c) →
      ∀ j ∈ (nearInner thr texts i ti cands dups checked).1, P j
  | [], dups, checked, hd, hi, hc => by simpa [nearInner] using hd
  | c :: crest, dups, checked, hd, hi, hc => by
    have hcHead : P c := hc c (List.mem_cons_self c crest)
    have hcTail : ∀ x ∈ crest, P x := fun x hx => hc x (List.mem_cons_of_mem c hx)
    simp only [nearInner]
    by_cases h1 : c = i ∨ c ∈ dups
    · simp only [h1, if_true]
      exact nearInner_dups_bound P thr texts i ti crest dups checked hd hi hcTail
    · simp only [h1, if_false]
      by_cases h2 : (min i c, max i c) ∈ checked
      · simp only [h2, if_true]
        exact nearInner_dups_bound P thr texts i ti crest dups checked hd hi hcTail
      · simp only [h2, if_false]
        by_cases h3 : qLt (qSub ⟨1, 1⟩ thr)
            (calculate_levenshtein_similarity ti (textOf texts c)) = true
        · simp only [h3, if_true]
          by_cases h4 : (textOf texts c).length > ti.length
          · simp only [h4, if_true]
            refine nearInner_dups_bound P thr texts i ti crest _ _ ?_ hi hcTail
            intro j hj
            rcases Finset.mem_insert.1 hj with rfl | hj
            · exact hi
            · exact hd j hj
          · simp only [h4, if_false]
            refine nearInner_dups_bound P thr texts i ti crest _ _ ?_ hi hcTail
            intro j hj
            rcases Finset.mem_insert.1 hj with rfl | hj
            · exact hcHead
            · exact hd j hj
        · simp only [h3, if_false]
          exact nearInner_dups_bound P thr texts i ti crest dups _ hd hi hcTail

/-- A successful association-list lookup exhibits a member pair. -/
theorem lookup_mem :
    ∀ (texts : List (Nat × String)) (i : Nat) (t : String),
      texts.lookup i = some t → (i, t) ∈ texts
  | [], i, t, h => by simp [List.lookup] at h
  | (a, b) :: rest, i, t, h => by
    by_cases hab : i = a
    · subst hab
      simp only [List.lookup, beq_self_eq_true] at h
      cases h
      exact List.mem_cons_self _ _
    · have hne : (i == a) = false := beq_eq_false_iff_ne.2 hab
      simp only [List.lookup, hne] at h
      exact List.mem_cons_of_mem _ (lookup_mem rest i t h)

/-- The outer near-dedup loop only marks indexed record indices. -/
theorem nearOuter_dups_bound (P : Nat → Prop) (thr : PyQ)
    (texts : List (Nat × String)) (htexts : ∀ p ∈ texts, P p.1) :
    ∀ (is_ : List Nat) (dups : Finset Nat) (checked : Finset (Nat × Nat)),
      (∀ j ∈ dups, P j) → ∀ j ∈ nearOuter thr texts is_ dups checked, P j
  | [], dups, checked, hd => by simpa [nearOuter] using hd
  | i :: irest, dups, checked, hd => by
    simp only [nearOuter]
    cases hl : texts.lookup i with
    | none =>
      exact nearOuter_dups_bound P thr texts htexts irest dups checked hd
    | some ti =>
      by_cases hi : i ∈ dups
      · simp only [hi, if_true]
        exact nearOuter_dups_bound P thr texts htexts irest dups checked hd
      · simp only [hi, if_false]
        have hPi : P i := by
          have hmem : (i, ti) ∈ texts := lookup_mem texts i ti hl
          exact htexts (i, ti) hmem
        have hcands : ∀ c ∈ texts.map Prod.fst, P c := by
          intro c hc
          rcases List.mem_map.1 hc with ⟨p, hp, rfl⟩
          exact htexts p hp
        refine nearOuter_dups_bound P thr texts htexts irest _ _ ?_
        exact nearInner_dups_bound P thr texts i ti (texts.map Prod.fst) dups checked
          hd hPi hcands

/-- Length of the index-filtering comprehension: the records dropped are
exactly the marked indices inside the window. -/
theorem filterIdxGo_length {α : Type} :
    ∀ (l : List α) (dups : Finset Nat) (i : Nat),
      (filterIdxGo dups l i).length =
        l.length - (dups.filter (fun j => i ≤ j ∧ j < i + l.length)).card
  | [], dups, i => by
    have : dups.filter (fun j => i ≤ j ∧ j < i + ([] : List α).length) = ∅ := by
      refine Finset.filter_false_of_mem ?_
      intro j _
      simp only [List.length_nil]
      omega
    simp [filterIdxGo, this]
  | a :: l, dups, i => by
    have hsub : (dups.filter (fun j => i + 1 ≤ j ∧ j < i + 1 + l.length)).card ≤ l.length := by
      have hss : dups.filter (fun j => i + 1 ≤ j ∧ j < i + 1 + l.length) ⊆
          Finset.Ico (i + 1) (i + 1 + l.length) := by
        intro j hj
        simp only [Finset.mem_filter] at hj
        simp only [Finset.mem_Ico]
        omega
      have := Finset.card_le_card hss
      simpa [Nat.card_Ico] using this
    have ih := filterIdxGo_length l dups (i + 1)
    by_cases h : i ∈ dups
    · have hw : dups.filter (fun j => i ≤ j ∧ j < i + (l.length + 1)) =
          insert i (dups.filter (fun j => i + 1 ≤ j ∧ j < i + 1 + l.length)) := by
        ext j
        simp only [Finset.mem_filter, Finset.mem_insert]
        constructor
        · rintro ⟨hj, h1, h2⟩
          rcases eq_or_ne j i with rfl | hne
          · exact Or.inl rfl
          · exact Or.inr ⟨hj, by omega, by omega⟩
        · rintro (rfl | ⟨hj, h1, h2⟩)
          · exact ⟨h, le_refl _, by omega⟩
          · exact ⟨hj, by omega, by omega⟩
      have hnotin : i ∉ dups.filter (fun j => i + 1 ≤ j ∧ j < i + 1 + l.length) := by
        simp only [Finset.mem_filter]
        rintro ⟨-, h1, -⟩
        omega
      have hstep : filterIdxGo dups (a :: l) i = filterIdxGo dups l (i + 1) := by
        simp [filterIdxGo, h]
      rw [hstep, ih]
      simp only [List.length_cons]
      rw [hw, Finset.card_insert_of_not_mem hnotin]
      omega
    · have hw : dups.filter (fun j => i ≤ j ∧ j < i + (l.length + 1)) =
          dups.filter (fun j => i + 1 ≤ j ∧ j < i + 1 + l.length) := by
        ext j
        simp only [Finset.mem_filter]
        constructor
        · rintro ⟨hj, h1, h2⟩
          have hne : j ≠ i := by rintro rfl; exact h hj
          exact ⟨hj, by omega, by omega⟩
        · rintro ⟨hj, h1, h2⟩
          exact ⟨hj, by omega, by omega⟩
      have hstep : filterIdxGo dups (a :: l) i = a :: filterIdxGo dups l (i + 1) := by
        simp [filterIdxGo, h]
      rw [hstep]
      simp only [List.length_cons, ih]
      rw [hw]
      omega

/-- The near-dedup duplicate set consists of indices of the input list. -/
theorem deduplicate_near_dups_lt (d : DatasetDeduplicator) (l : List Sample) :
    ∀ j ∈ (deduplicate_near d l).2, j < l.length := by
  intro j hj
  refine nearOuter_dups_bound (fun j => j < l.length) d.levenshtein_threshold
    (buildTexts l 0) ?_ (List.range l.length) ∅ ∅ ?_ j hj
  · intro p hp
    have := buildTexts_bound l 0 p hp
    omega
  · intro x hx
    exact absurd hx (Finset.not_mem_empty x)

/-- Sizes after near dedup: survivors plus duplicates equal the input. -/
theorem deduplicate_near_length (d : DatasetDeduplicator) (l : List Sample) :
    (deduplicate_near d l).1.length + (deduplicate_near d l).2.card = l.length := by
  have hlt := deduplicate_near_dups_lt d l
  have hfilter : ((deduplicate_near d l).2.filter
      (fun j => 0 ≤ j ∧ j < 0 + l.length)) = (deduplicate_near d l).2 := by
    refine Finset.filter_true_of_mem ?_
    intro j hj
    exact ⟨Nat.zero_le j, by simpa using hlt j hj⟩
  have hcard : (deduplicate_near d l).2.card ≤ l.length := by
    have hss : (deduplicate_near d l).2 ⊆ Finset.range l.length := by
      intro j hj
      exact Finset.mem_range.2 (hlt j hj)
    simpa using Finset.card_le_card hss
  have hlen := filterIdxGo_length l (deduplicate_near d l).2 0
  have h1 : (deduplicate_near d l).1 = filterIdxGo (deduplicate_near d l).2 l 0 := rfl
  rw [h1, hlen, hfilter]
  omega

/-- The report `deduplicate` returns on a nonempty dataset. -/
theorem deduplicate_some (d : DatasetDeduplicator) (ds : List Sample) (h : ds ≠ []) :
    deduplicate d ds = some ⟨ds.length, (deduplicate_exact ds).2.card,
      (deduplicate_near d (deduplicate_exact ds).1).2.card,
      (deduplicate_exact ds).2.card + (deduplicate_near d (deduplicate_exact ds).1).2.card,
      (deduplicate_near d (deduplicate_exact ds).1).1.length,
      qMul (qDiv (intQ ((deduplicate_exact ds).2.card +
        (deduplicate_near d (deduplicate_exact ds).1).2.card)) (intQ ds.length)) ⟨100, 1⟩,
      (deduplicate_near d (deduplicate_exact ds).1).1⟩ := by
  have h0 : ¬ ds.length = 0 := fun hh => h (List.length_eq_zero.1 hh)
  simp [deduplicate, h0]

/-- C10: on the empty dataset `deduplicate` hits an uncaught
`ZeroDivisionError` while computing the deduplication rate and produces
no result; on any nonempty dataset it returns the documented report, in
which `original_size = exact_duplicates + near_duplicates + final_size`. -/
theorem deduplicate_empty_and_size_invariant :
    (∀ d : DatasetDeduplicator, deduplicate d [] = none)
    ∧ (∀ (d : DatasetDeduplicator) (ds : List Sample), ds ≠ [] →
        ∃ r, deduplicate d ds = some r ∧
          r.original_size = r.exact_duplicates + r.near_duplicates + r.final_size) := by
  constructor
  · intro d
    rfl
  · intro d ds hne
    refine ⟨_, deduplicate_some d ds hne, ?_⟩
    have hexact := (dedupExactGo_count ds 0 ∅).1
    have hnear := deduplicate_near_length d (deduplicate_exact ds).1
    have hE : (deduplicate_exact ds).1.length + (deduplicate_exact ds).2.card = ds.length :=
      hexact
    simp only
    omega

/-! ## C6 -/

/-- C6 counterexample: records A and C have edit similarity
`0.9 > 1 - 0.2`, yet on the dataset `[A, B, C]` stage 2 removes both of
them (duplicate indices `{0, 2}`): B first eliminates the query A, and
the already-eliminated A still acts as a query that eliminates the
shorter C.  So it is not the case that exactly one of `{A, C}` survives. -/
theorem near_dup_pair_both_removed :
    qLt (qSub ⟨1, 1⟩ DEFAULT_LEVENSHTEIN_THRESHOLD)
      (calculate_levenshtein_similarity (sampleText nearA) (sampleText nearC)) = true
    ∧ (deduplicate_near defaultDeduplicator [nearA, nearB, nearC]).1 = [nearB]
    ∧ (deduplicate_near defaultDeduplicator [nearA, nearB, nearC]).2 = {0, 2}
    ∧ nearA ∉ (deduplicate_near defaultDeduplicator [nearA, nearB, nearC]).1
    ∧ nearC ∉ (deduplicate_near defaultDeduplicator [nearA, nearB, nearC]).1 := by
  refine ⟨by decide, by decide, by decide, by decide, by decide⟩

/-- C6 (amended): the pairwise monotonicity holds for a dataset of
exactly the two records: when both canonical texts meet the minimum
length and their edit similarity exceeds `1 - levenshtein_threshold`,
exactly one record survives stage 2 — the one with the strictly longer
canonical text, the first-seen record on ties.  (With more records the
property can fail, because a record already marked duplicate still
eliminates shorter neighbours: see the counterexample.) -/
theorem near_dup_two_record_monotone
    (d : DatasetDeduplicator) (a b : Sample)
    (hlen_a : ¬ (sampleText a).length < MIN_TEXT_LENGTH)
    (hlen_b : ¬ (sampleText b).length < MIN_TEXT_LENGTH)
    (hsim : qLt (qSub ⟨1, 1⟩ d.levenshtein_threshold)
      (calculate_levenshtein_similarity (sampleText a) (sampleText b)) = true) :
    deduplicate_near d [a, b] =
      (if (sampleText b).length > (sampleText a).length then [b] else [a],
       if (sampleText b).length > (sampleText a).length then ({0} : Finset Nat)
       else {1}) := by
  have htexts : buildTexts [a, b] 0 = [(0, sampleText a), (1, sampleText b)] := by
    simp only [buildTexts, if_neg hlen_a, if_neg hlen_b]
  have hrange : List.range ([a, b] : List Sample).length = [0, 1] := rfl
  by_cases hgt : (sampleText b).length > (sampleText a).length
  · simp only [deduplicate_near, htexts, hrange, hgt, if_true]
    simp [nearOuter, nearInner, textOf, List.lookup, hsim, hgt, filterIdxGo]
  · simp only [deduplicate_near, htexts, hrange, hgt, if_false]
    simp [nearOuter, nearInner, textOf, List.lookup, hsim, hgt, filterIdxGo]

/-- C6 witness: the two-record monotonicity at two concrete records of
lengths 9 and 10 with edit similarity `9/10`: the longer one survives. -/
theorem near_dup_two_record_monotone_witness :
    ((¬ (sampleText (sampleQ "aaaaaaaaa")).length < MIN_TEXT_LENGTH)
    ∧ (¬ (sampleText (sampleQ "aaaaaaaaaa")).length < MIN_TEXT_LENGTH)
    ∧ qLt (qSub ⟨1, 1⟩ defaultDeduplicator.levenshtein_threshold)
        (calculate_levenshtein_similarity (sampleText (sampleQ "aaaaaaaaa"))
          (sampleText (sampleQ "aaaaaaaaaa"))) = true)
    ∧ deduplicate_near defaultDeduplicator [sampleQ "aaaaaaaaa", sampleQ "aaaaaaaaaa"] =
        ([sampleQ "aaaaaaaaaa"], {0}) :=
  ⟨⟨by decide, by decide, by decide⟩,
    near_dup_two_record_monotone defaultDeduplicator (sampleQ "aaaaaaaaa")
      (sampleQ "aaaaaaaaaa") (by decide) (by decide) (by decide)⟩

/-- C10 witness: the invariant at a concrete three-record dataset with
one exact duplicate. -/
theorem deduplicate_empty_and_size_invariant_witness :
    (⟨some "abc", none, none, none, none, none, none⟩ : Sample) ::
      [⟨some "abc", none, none, none, none, none, none⟩,
       ⟨some "xyzw", none, none, none, none, none, none⟩] ≠ []
    ∧ ∃ r, deduplicate defaultDeduplicator
        [⟨some "abc", none, none, none, none, none, none⟩,
         ⟨some "abc", none, none, none, none, none, none⟩,
         ⟨some "xyzw", none, none, none, none, none, none⟩] = some r ∧
        r.original_size = r.exact_duplicates + r.near_duplicates + r.final_size :=
  ⟨by decide,
    deduplicate_empty_and_size_invariant.2 defaultDeduplicator
      [⟨some "abc", none, none, none, none, none, none⟩,
       ⟨some "abc", none, none, none, none, none, none⟩,
       ⟨some "xyzw", none, none, none, none, none, none⟩] (by decide)⟩

end VllmEval
